import Mathlib

/-!
Verification of the data-shaping logic of the DWLR groundwater dashboard
(`app1.py`).

The dashboard is a linear script over pandas dataframes.  We shallowly embed
the parts of it that the specification talks about:

* `normalize_df` (header cleaning, year extraction from the filename,
  coordinate injection from the static `district_coords` table) is embedded
  over a column-store dataframe model (`DataFrame`), with cells modelled by
  `Value` (`str` for text, `intv` for integer cells such as `Year`,
  `num` for floating point cells, `null` for `None`/`NaN`).
  Floating point numbers are modelled as exact rationals (ℚ); `NaN` is
  modelled by `Value.null` (respectively by `Option.none` in the panel
  computations below).
* The in-place mutation of the dataframe argument performed by
  `normalize_df` is modelled by a small heap semantics: a heap maps
  references to dataframes, each Python statement of the body is a heap
  transformer acting on the object at the argument reference, and
  `return df` returns that same reference.
* The panel computations (`calc_stats`, the recharge/decline table
  `yearly_change` / `trend_table`, the spatial map markers built from
  `avg_depth`) are embedded over lists of `StationRow` records, which model
  the rows of the filtered dataframe with the columns those computations
  actually read (`District`, `Year`, `Minimum`, `Maximum`, `Latitude`,
  `Longitude`).  `groupby` is modelled by deduplicating and sorting the
  key tuples (pandas sorts group keys) and aggregating each group's rows;
  `Series.diff` within `groupby("District")` is modelled by `applyDiff`,
  which for each row finds the most recent earlier row with the same
  district.
* pandas compares strings by code points; since Mathlib's `String` order
  does not reduce in the kernel we use an explicit code-point-wise
  lexicographic comparison `lexLtB` for sorting group keys.
-/

/-! ## Character and string helpers -/

/-- Python `str.strip()` whitespace set: space, tab, newline, carriage
return, vertical tab, form feed. -/
def pyIsSpace (c : Char) : Bool :=
  c = ' ' || c = '\t' || c = '\n' || c = '\r' || c = '\x0b' || c = '\x0c'

/-- Python `s.strip()` on a character list: drop leading and trailing
whitespace. -/
def stripChars (l : List Char) : List Char :=
  ((l.dropWhile pyIsSpace).reverse.dropWhile pyIsSpace).reverse

/-- One column-header normalization step of `normalize_df`:
`df.columns.str.strip().str.replace("\n", " ")` applied to a single name
(strip, then replace each newline character by a space). -/
def stripName (s : String) : String :=
  String.mk ((stripChars s.data).map (fun c => if c = '\n' then ' ' else c))

/-- Code-point-wise strict lexicographic order on character lists (the
order pandas uses when sorting string group keys). -/
def lexLtB : List Char → List Char → Bool
  | _, [] => false
  | [], _ :: _ => true
  | a :: as, b :: bs =>
    if a.toNat < b.toNat then true
    else if b.toNat < a.toNat then false
    else lexLtB as bs

/-- Strict lexicographic order on strings by code points. -/
def strLtB (a b : String) : Bool := lexLtB a.data b.data

/-! ## Dataframe model -/

/-- A dataframe cell: a string, an integer (pandas int64, e.g. the `Year`
column), a float modelled as an exact rational, or `None`/`NaN`. -/
inductive Value where
  | str (s : String)
  | intv (n : ℤ)
  | num (q : ℚ)
  | null
deriving DecidableEq

/-- A pandas dataframe, modelled as a column store: a list of
(column name, cell list) pairs, in column order. -/
structure DataFrame where
  cols : List (String × List Value)
deriving DecidableEq

/-- Column lookup (`df[name]`): the first column with the given name. -/
def getCol (df : DataFrame) (name : String) : Option (List Value) :=
  (df.cols.find? (fun c => c.1 == name)).map Prod.snd

/-- Column membership (`name in df.columns`). -/
def hasCol (df : DataFrame) (name : String) : Bool :=
  df.cols.any (fun c => c.1 == name)

/-- Number of rows of the dataframe (all columns have the same length in a
well-formed frame; we read it off the first column). -/
def nrows (df : DataFrame) : Nat :=
  match df.cols with
  | [] => 0
  | c :: _ => c.2.length

/-- Column assignment (`df[name] = values`): overwrite the column in place
when present, otherwise append it as the last column (pandas semantics). -/
def setCol (df : DataFrame) (name : String) (vals : List Value) : DataFrame :=
  if hasCol df name then
    ⟨df.cols.map (fun c => if c.1 == name then (name, vals) else c)⟩
  else
    ⟨df.cols ++ [(name, vals)]⟩

/-- Scalar column assignment (`df[name] = scalar`): the scalar is broadcast
to every row. -/
def setScalar (df : DataFrame) (name : String) (v : Value) : DataFrame :=
  setCol df name (List.replicate (nrows df) v)

/-! ## The static district coordinate table and `normalize_df` -/

/-- Hardcoded district coordinates (approximate centroids of Tamil Nadu
districts), as in the source's `district_coords` dict. -/
def district_coords : List (String × ℚ × ℚ) :=
  [("Chennai", (13.0827, 80.2707)),
   ("Coimbatore", (11.0168, 76.9558)),
   ("Madurai", (9.9252, 78.1198)),
   ("Tiruchirappalli", (10.7905, 78.7047)),
   ("Salem", (11.6643, 78.1460)),
   ("Erode", (11.3410, 77.7172)),
   ("Vellore", (12.9165, 79.1325)),
   ("Tirunelveli", (8.7139, 77.7567)),
   ("Thoothukudi", (8.7642, 78.1348)),
   ("Dindigul", (10.3624, 77.9695)),
   ("Thanjavur", (10.7870, 79.1378)),
   ("Kancheepuram", (12.8342, 79.7036)),
   ("Cuddalore", (11.7480, 79.7714)),
   ("Nagapattinam", (10.7650, 79.8449)),
   ("Ramanathapuram", (9.3639, 78.8395)),
   ("Krishnagiri", (12.5186, 78.2137)),
   ("Dharmapuri", (12.1357, 78.1582)),
   ("Villupuram", (11.9400, 79.5000)),
   ("Namakkal", (11.2202, 78.1652)),
   ("Karur", (10.9601, 78.0766)),
   ("Nilgiris", (11.4916, 76.7337)),
   ("Kanyakumari", (8.0883, 77.5385)),
   ("Tiruvallur", (13.1437, 79.9089)),
   ("Sivaganga", (9.8433, 78.4800)),
   ("Virudhunagar", (9.5680, 77.9624)),
   ("Ariyalur", (11.1381, 79.0786)),
   ("Perambalur", (11.2342, 78.8803)),
   ("Pudukkottai", (10.3797, 78.8208)),
   ("Tiruvarur", (10.7720, 79.6368)),
   ("Tiruppur", (11.1085, 77.3411))]

/-- Dictionary lookup `district_coords.get(d, ...)` without the default:
exact, case- and spelling-sensitive key match. -/
def lookupCoord (d : String) : Option (ℚ × ℚ) :=
  (district_coords.find? (fun e => e.1 == d)).map Prod.snd

/-- The coordinate pair used for a `District` cell:
`district_coords.get(d, (11.0, 78.0))`.  A non-string cell (e.g. `NaN`) is
never a key of the dict, so it also gets the default point. -/
def coordPair (v : Value) : ℚ × ℚ :=
  match v with
  | .str d => (lookupCoord d).getD (11.0, 78.0)
  | _ => (11.0, 78.0)

/-- Digit characters of the filename, in order
(`[c for c in filename if c.isdigit()]`). -/
def digitsOf (filename : String) : List Char :=
  filename.data.filter Char.isDigit

/-- Python `int` on a (non-empty) digit string: the integer formed by
concatenating the digits in order. -/
def concatDigits (cs : List Char) : Nat :=
  cs.foldl (fun a c => 10 * a + (c.toNat - 48)) 0

/-- The value assigned to the `Year` column:
`int("".join(digits))` when the digit string is non-empty, `None`
otherwise. -/
def yearValue (filename : String) : Value :=
  if digitsOf filename = [] then Value.null
  else Value.intv (concatDigits (digitsOf filename))

/-- Statement `df.columns = df.columns.str.strip().str.replace("\n", " ")`:
normalize every column header. -/
def stripStep (df : DataFrame) : DataFrame :=
  ⟨df.cols.map (fun c => (stripName c.1, c.2))⟩

/-- The `rename_map` of `normalize_df` applied to one column name. -/
def renameStd (name : String) : String :=
  if name = "No of wells Monitored" then "Wells_Monitored"
  else if name = "S No" then "SNo"
  else name

/-- Statement `df.rename(columns=rename_map, inplace=True)`. -/
def renameStep (df : DataFrame) : DataFrame :=
  ⟨df.cols.map (fun c => (renameStd c.1, c.2))⟩

/-- Statement `df["Year"] = int(year)` / `df["Year"] = None`. -/
def yearStep (df : DataFrame) (filename : String) : DataFrame :=
  setScalar df "Year" (yearValue filename)

/-- The dataframe state just before the coordinate-injection conditional:
headers cleaned, standard columns renamed, `Year` assigned. -/
def preInject (df : DataFrame) (filename : String) : DataFrame :=
  yearStep (renameStep (stripStep df)) filename

/-- The coordinate-injection conditional of `normalize_df`:
if `Latitude` or `Longitude` is missing, both are (re)computed from the
`District` column via `district_coords`.  Reading a missing `District`
column raises a `KeyError`, modelled as `Except.error`. -/
def injectCoords (df : DataFrame) : Except String DataFrame :=
  if hasCol df "Latitude" && hasCol df "Longitude" then Except.ok df
  else
    match getCol df "District" with
    | none => Except.error "KeyError: District"
    | some dvals =>
      Except.ok
        (setCol (setCol df "Latitude"
            (dvals.map (fun v => Value.num (coordPair v).1)))
          "Longitude" (dvals.map (fun v => Value.num (coordPair v).2)))

/-- The function `normalize_df(df, filename)` of `app1.py`: normalize
column names, add `Year` from the filename, inject synthetic coordinates
when latitude/longitude are absent. -/
def normalize_df (df : DataFrame) (filename : String) :
    Except String DataFrame :=
  injectCoords (preInject df filename)

/-! ## Heap semantics for the in-place mutation of `normalize_df` -/

/-- A heap mapping references (naturals) to dataframe objects. -/
def heapWrite (h : Nat → Option DataFrame) (r : Nat) (df : DataFrame) :
    Nat → Option DataFrame :=
  fun i => if i = r then some df else h i

/-- Statement `df.columns = ...` as a heap transformer: mutate the object
at the argument reference. -/
def stmtStrip (h : Nat → Option DataFrame) (r : Nat) :
    Except String (Nat → Option DataFrame) :=
  match h r with
  | none => Except.error "invalid reference"
  | some df => Except.ok (heapWrite h r (stripStep df))

/-- Statement `df.rename(columns=rename_map, inplace=True)` as a heap
transformer. -/
def stmtRename (h : Nat → Option DataFrame) (r : Nat) :
    Except String (Nat → Option DataFrame) :=
  match h r with
  | none => Except.error "invalid reference"
  | some df => Except.ok (heapWrite h r (renameStep df))

/-- Statement `df["Year"] = ...` as a heap transformer. -/
def stmtYear (h : Nat → Option DataFrame) (r : Nat) (filename : String) :
    Except String (Nat → Option DataFrame) :=
  match h r with
  | none => Except.error "invalid reference"
  | some df => Except.ok (heapWrite h r (yearStep df filename))

/-- The coordinate-injection conditional as a heap transformer. -/
def stmtInject (h : Nat → Option DataFrame) (r : Nat) :
    Except String (Nat → Option DataFrame) :=
  match h r with
  | none => Except.error "invalid reference"
  | some df => (injectCoords df).map (heapWrite h r)

/-- The whole body of `normalize_df` run against a heap: each statement
mutates the dataframe object at reference `r` in place, and the final
`return df` returns that same reference. -/
def normalizeProg (h : Nat → Option DataFrame) (r : Nat)
    (filename : String) :
    Except String ((Nat → Option DataFrame) × Nat) :=
  match stmtStrip h r with
  | Except.error e => Except.error e
  | Except.ok h1 =>
    match stmtRename h1 r with
    | Except.error e => Except.error e
    | Except.ok h2 =>
      match stmtYear h2 r filename with
      | Except.error e => Except.error e
      | Except.ok h3 =>
        match stmtInject h3 r with
        | Except.error e => Except.error e
        | Except.ok h4 => Except.ok (h4, r)

/-! ## Rows of the filtered dataframe and the panel computations -/

/-- One row of the filtered dataframe, with the columns the panel
computations read.  `year` is `none` when the `Year` cell is null (pandas
`groupby` drops such rows from the group keys); `minimum`, `maximum` are
the `Minimum`/`Maximum` water level columns; `latitude`/`longitude` the
coordinate columns. -/
structure StationRow where
  district : String
  year : Option Nat
  minimum : ℚ
  maximum : ℚ
  latitude : ℚ
  longitude : ℚ
deriving DecidableEq

/-- Lexicographic (district, year) group-key order used by pandas
`groupby`/`sort_values`. -/
def keyLe (a b : String × Nat) : Prop :=
  strLtB a.1 b.1 = true ∨ (a.1 = b.1 ∧ a.2 ≤ b.2)

instance keyLeDec : DecidableRel keyLe := fun a b =>
  inferInstanceAs (Decidable (strLtB a.1 b.1 = true ∨ (a.1 = b.1 ∧ a.2 ≤ b.2)))

/-- The group key of a row for `groupby(["District", "Year"])`: rows with a
null year are dropped. -/
def rowKey (r : StationRow) : Option (String × Nat) :=
  r.year.map (fun y => (r.district, y))

/-- The distinct (District, Year) group keys, in the sorted order pandas
produces (`groupby` sorts keys; the recharge panel re-sorts by
`["District", "Year"]`, which is the same order on distinct keys). -/
def groupKeys (rows : List StationRow) : List (String × Nat) :=
  List.insertionSort keyLe ((rows.filterMap rowKey).dedup)

/-- The rows of one (District, Year) group. -/
def groupRows (rows : List StationRow) (d : String) (y : Nat) :
    List StationRow :=
  rows.filter (fun r => r.district == d && r.year == some y)

/-- Arithmetic mean of a list of values (pandas `mean`). -/
def meanOf (xs : List ℚ) : ℚ := xs.sum / xs.length

/-- Mean of the `Minimum` column over one (District, Year) group. -/
def meanMin (rows : List StationRow) (d : String) (y : Nat) : ℚ :=
  meanOf ((groupRows rows d y).map StationRow.minimum)

/-- One row of the `yearly_change` frame: `(District, Year, Minimum,
DeltaWL)`, where `Minimum` is the group mean and `DeltaWL` the
year-over-year difference (`none` models `NaN`). -/
structure YRow where
  district : String
  year : Nat
  minimum : ℚ
  deltaWL : Option ℚ
deriving DecidableEq

/-- The `groupby("District")["Minimum"].diff()` step: for each row, the
difference from the most recent earlier row with the same district
(`none` when there is no such row).  `seen` holds the already-processed
rows as (district, mean) pairs, most recent first. -/
def applyDiff : List (String × ℚ) → List (String × Nat × ℚ) → List YRow
  | _, [] => []
  | seen, (d, y, m) :: rest =>
    { district := d, year := y, minimum := m,
      deltaWL := (seen.find? (fun p => p.1 == d)).map (fun p => m - p.2) }
      :: applyDiff ((d, m) :: seen) rest

/-- The sorted per-(District, Year) mean `Minimum` table
(`df_filtered.groupby(["District","Year"])["Minimum"].mean().reset_index()
.sort_values(["District","Year"])`). -/
def keyedMeans (rows : List StationRow) : List (String × Nat × ℚ) :=
  (groupKeys rows).map (fun k => (k.1, k.2, meanMin rows k.1 k.2))

/-- The `yearly_change` frame of the recharge/decline panel, with its
`DeltaWL` column. -/
def yearly_change (rows : List StationRow) : List YRow :=
  applyDiff [] (keyedMeans rows)

/-- Python `x > 0` where `x` may be `NaN` (modelled as `none`): any
comparison with `NaN` is false. -/
def pyGtZero : Option ℚ → Bool
  | some x => decide (0 < x)
  | none => false

/-- Python `x < 0` where `x` may be `NaN`: false for `NaN`. -/
def pyLtZero : Option ℚ → Bool
  | some x => decide (x < 0)
  | none => false

/-- The trend-label lambda of the recharge panel:
`"⬆️ Recharge" if x > 0 else ("⬇️ Decline" if x < 0 else "➖ Stable")`. -/
def trendOf (x : Option ℚ) : String :=
  if pyGtZero x then "⬆️ Recharge"
  else if pyLtZero x then "⬇️ Decline"
  else "➖ Stable"

/-- One row of the displayed `trend_table`. -/
structure TRow where
  district : String
  year : Nat
  minimum : ℚ
  deltaWL : Option ℚ
  trend : String
deriving DecidableEq

/-- The `trend_table` frame: `yearly_change` plus the `Trend` column. -/
def trend_table (rows : List StationRow) : List TRow :=
  (yearly_change rows).map
    (fun r => ⟨r.district, r.year, r.minimum, r.deltaWL, trendOf r.deltaWL⟩)

/-- Maximum of a list of values (pandas `Series.max`; groups are never
empty, the `0` default is unreachable). -/
def listMax : List ℚ → ℚ
  | [] => 0
  | x :: xs => xs.foldl max x

/-- Minimum of a list of values (pandas `Series.min`). -/
def listMin : List ℚ → ℚ
  | [] => 0
  | x :: xs => xs.foldl min x

/-- Median of a list of values (pandas `Series.median`: middle element of
the sorted list, or the mean of the two middle elements; groups are never
empty, the `0` default is unreachable). -/
def median (xs : List ℚ) : ℚ :=
  let s := List.insertionSort (fun a b : ℚ => a ≤ b) xs
  if s.length % 2 = 1 then s.getD (s.length / 2) 0
  else if s.length = 0 then 0
  else (s.getD (s.length / 2 - 1) 0 + s.getD (s.length / 2) 0) / 2

/-- One row of the `calc_stats` output. -/
structure StatsRow where
  district : String
  year : Nat
  mean_Min : ℚ
  mean_Max : ℚ
  median_Min : ℚ
  median_Max : ℚ
  range_MinMax : ℚ
deriving DecidableEq

/-- The function `calc_stats(df)` of `app1.py`: group by (District, Year)
and aggregate mean/median of `Minimum` and `Maximum`, plus
`Range_MinMax = Maximum.max() - Maximum.min()` per group. -/
def calc_stats (rows : List StationRow) : List StatsRow :=
  (groupKeys rows).map (fun k =>
    { district := k.1, year := k.2,
      mean_Min := meanOf ((groupRows rows k.1 k.2).map StationRow.minimum),
      mean_Max := meanOf ((groupRows rows k.1 k.2).map StationRow.maximum),
      median_Min := median ((groupRows rows k.1 k.2).map StationRow.minimum),
      median_Max := median ((groupRows rows k.1 k.2).map StationRow.maximum),
      range_MinMax := listMax ((groupRows rows k.1 k.2).map StationRow.maximum)
        - listMin ((groupRows rows k.1 k.2).map StationRow.maximum) })

/-- Lexicographic order on (District, Latitude, Longitude) map group
keys. -/
def keyLe3 (a b : String × ℚ × ℚ) : Prop :=
  strLtB a.1 b.1 = true ∨
    (a.1 = b.1 ∧ (a.2.1 < b.2.1 ∨ (a.2.1 = b.2.1 ∧ a.2.2 ≤ b.2.2)))

instance keyLe3Dec : DecidableRel keyLe3 := fun a b =>
  inferInstanceAs (Decidable (strLtB a.1 b.1 = true ∨
    (a.1 = b.1 ∧ (a.2.1 < b.2.1 ∨ (a.2.1 = b.2.1 ∧ a.2.2 ≤ b.2.2)))))

/-- The `avg_depth` frame of the spatial panel:
`df_filtered.groupby(["District","Latitude","Longitude"])["Minimum"]
.mean().reset_index()`. -/
def avg_depth (rows : List StationRow) : List (String × ℚ × ℚ × ℚ) :=
  (List.insertionSort keyLe3
      ((rows.map (fun r => (r.district, r.latitude, r.longitude))).dedup)).map
    (fun k => (k.1, k.2.1, k.2.2,
      meanOf ((rows.filter (fun r =>
        r.district == k.1 && r.latitude == k.2.1 && r.longitude == k.2.2)).map
          StationRow.minimum)))

/-- One station point drawn on the folium map. -/
structure Marker where
  district : String
  latitude : ℚ
  longitude : ℚ
  depth : ℚ
  color : String
deriving DecidableEq

/-- The marker color expression of the source:
`color="blue" if row["Minimum"] < 5 else "red"`. -/
def markerColor (depth : ℚ) : String :=
  if depth < 5 then "blue" else "red"

/-- The circle markers drawn by the spatial panel, one per `avg_depth`
row. -/
def mapMarkers (rows : List StationRow) : List Marker :=
  (avg_depth rows).map
    (fun g => ⟨g.1, g.2.1, g.2.2.1, g.2.2.2, markerColor g.2.2.2⟩)

/-- What a display panel renders: a table, a chart, a map, or a
user-visible message (`st.warning` / `st.info`). -/
inductive Panel where
  | statsTable (t : List StatsRow)
  | trendView (t : List TRow)
  | mapView (markers : List Marker)
  | depthChart (depthCols : List String) (rows : List StationRow)
  | warningMsg (msg : String)
  | infoMsg (msg : String)
deriving DecidableEq

/-- The Descriptive Statistics panel: guarded by
`if not df_filtered.empty`, invoking `calc_stats` only on non-empty
data. -/
def statsPanel (rows : List StationRow) : Panel :=
  if !rows.isEmpty then Panel.statsTable (calc_stats rows)
  else Panel.warningMsg "No data available for the selected filters."

/-- The Recharge / Decline panel: `yearly_change` is always computed; the
table is shown iff `not yearly_change["DeltaWL"].isna().all()`, otherwise
an informational message appears. -/
def rechargePanel (rows : List StationRow) : Panel :=
  if !((yearly_change rows).all (fun r => r.deltaWL.isNone)) then
    Panel.trendView (trend_table rows)
  else Panel.infoMsg "⚠️ Not enough yearly data to calculate recharge/decline."

/-- The Spatial Comparison panel: unconditional, no emptiness guard in the
source. -/
def mapPanel (rows : List StationRow) : Panel :=
  Panel.mapView (mapMarkers rows)

/-- The Depth Distribution panel: guarded only on the presence of
percentage columns (`[c for c in df_filtered.columns if "%" in c]`), not
on emptiness of the data. -/
def depthPanel (columnNames : List String) (rows : List StationRow) :
    Panel :=
  if !(columnNames.filter (fun c => c.data.contains '%')).isEmpty then
    Panel.depthChart (columnNames.filter (fun c => c.data.contains '%')) rows
  else Panel.infoMsg
    "⚠️ No depth range percentage columns found for distribution analysis."

/-- Sample input frame: one row, `District` column only. -/
def sampleDf : DataFrame := ⟨[("District", [Value.str "Chennai"])]⟩

/-- The frame `normalize_df` produces from `sampleDf` and filename
`"data_2020_v2.csv"`. -/
def sampleOut : DataFrame :=
  ⟨[("District", [Value.str "Chennai"]),
    ("Year", [Value.intv 20202]),
    ("Latitude", [Value.num 13.0827]),
    ("Longitude", [Value.num 80.2707])]⟩

/-- Sample frame with two rows: one district in the table, one unknown. -/
def sampleDf2 : DataFrame :=
  ⟨[("District", [Value.str "Chennai", Value.str "Atlantis"])]⟩

/-- The frame `normalize_df` produces from `sampleDf2` and filename
`"w2021.csv"`. -/
def sampleOut2 : DataFrame :=
  ⟨[("District", [Value.str "Chennai", Value.str "Atlantis"]),
    ("Year", [Value.intv 2021, Value.intv 2021]),
    ("Latitude", [Value.num 13.0827, Value.num 11.0]),
    ("Longitude", [Value.num 80.2707, Value.num 78.0])]⟩

/-- Sample frame that has a `Latitude` column (value 99) but no
`Longitude` column. -/
def sampleDfLat : DataFrame :=
  ⟨[("District", [Value.str "Salem"]), ("Latitude", [Value.num 99])]⟩

/-- The frame `normalize_df` produces from `sampleDfLat` and filename
`"w2021.csv"`: the old `Latitude` column is overwritten in place. -/
def sampleOutLat : DataFrame :=
  ⟨[("District", [Value.str "Salem"]),
    ("Latitude", [Value.num 11.6643]),
    ("Year", [Value.intv 2021]),
    ("Longitude", [Value.num 78.1460])]⟩

/-- Initial heap for the C10 witness: the argument frame lives at
reference 0. -/
def heap0 : Nat → Option DataFrame :=
  fun i => if i = 0 then some sampleDf else none

/-- Result of running the `normalize_df` body against `heap0`. -/
def heap0Run : ((Nat → Option DataFrame) × Nat) :=
  match normalizeProg heap0 0 "data_2020_v2.csv" with
  | Except.ok res => res
  | Except.error _ => (heap0, 0)

/-! ## Lemmas about the recharge/decline computation -/

/-- Strict lexicographic (district, year) order. -/
def keyLt (a b : String × Nat) : Prop :=
  strLtB a.1 b.1 = true ∨ (a.1 = b.1 ∧ a.2 < b.2)

/-- The `DeltaWL` value of row `i` of `yearly_change`, as a function of the
sorted key list: the difference from the most recent earlier key with the
same district, when there is one. -/
def deltaAt (rows : List StationRow) (i : Nat) (k : String × Nat) :
    Option ℚ :=
  ((((groupKeys rows).take i).reverse.map
      (fun u => (u.1, meanMin rows u.1 u.2))).find?
    (fun p => p.1 == k.1)).map (fun p => meanMin rows k.1 k.2 - p.2)

/-- Sample filtered rows for the recharge witness: one district, two
years. -/
def rowsA : List StationRow :=
  [⟨"Chennai", some 2020, 1, 2, 0, 0⟩, ⟨"Chennai", some 2021, 3, 4, 0, 0⟩]

/-- First `yearly_change` row of `rowsA` (first year: null delta). -/
def yA0 : YRow := ⟨"Chennai", 2020, 1, none⟩

/-- Second `yearly_change` row of `rowsA` (delta 3 − 1 = 2). -/
def yA1 : YRow := ⟨"Chennai", 2021, 3, some 2⟩

/-- The trend-table row of `rowsA` for 2020: null delta, labelled
"Stable". -/
def tA0 : TRow := ⟨"Chennai", 2020, 1, none, "➖ Stable"⟩

/-- The trend-table row of `rowsA` for 2021. -/
def tA1 : TRow := ⟨"Chennai", 2021, 3, some 2, "⬆️ Recharge"⟩

/-- One-station sample rows for the map panel: average minimum depth 3
(below the threshold 5). -/
def rows4 : List StationRow := [⟨"Chennai", some 2020, 3, 6, 1, 2⟩]

/-- The marker drawn for `rows4`: depth 3, colored blue. -/
def mk4 : Marker := ⟨"Chennai", 1, 2, 3, "blue"⟩

/-- The spec's worked example: a 2021 file with two Chennai rows,
`Minimum` 4 and 3, `Maximum` 6 and 5. -/
def rows6 : List StationRow :=
  [⟨"Chennai", some 2021, 4, 6, 0, 0⟩, ⟨"Chennai", some 2021, 3, 5, 0, 0⟩]

/-- The single `calc_stats` row of `rows6`: `Mean_Min` 3.5, `Mean_Max`
5.5, `Range_MinMax` 1. -/
def stats6 : StatsRow := ⟨"Chennai", 2021, 7/2, 11/2, 7/2, 11/2, 1⟩

/-- Sample row for the C8 witness. -/
def rowW : StationRow := ⟨"Chennai", some 2020, 4, 6, 13, 80⟩

theorem lexLtB_irrefl : ∀ l : List Char, lexLtB l l = false := by
  intro l
  induction l with
  | nil => rfl
  | cons a as ih => simp [lexLtB, ih]

theorem lexLtB_cons_lt {x y : Char} (xs ys : List Char)
    (h : x.toNat < y.toNat) : lexLtB (x :: xs) (y :: ys) = true := by
  simp [lexLtB, h]

theorem lexLtB_cons_gt {x y : Char} (xs ys : List Char)
    (h : y.toNat < x.toNat) : lexLtB (x :: xs) (y :: ys) = false := by
  simp [lexLtB, h, Nat.lt_asymm h]

theorem lexLtB_cons_eq {x y : Char} (xs ys : List Char)
    (h : x.toNat = y.toNat) : lexLtB (x :: xs) (y :: ys) = lexLtB xs ys := by
  simp [lexLtB, h, Nat.lt_irrefl]

theorem charToNat_inj {x y : Char} (h : x.toNat = y.toNat) : x = y :=
  Char.ext (UInt32.ext h)

theorem lexLtB_trans : ∀ {a b c : List Char},
    lexLtB a b = true → lexLtB b c = true → lexLtB a c = true := by
  intro a
  induction a with
  | nil =>
    intro b c hab hbc
    cases b with
    | nil => exact hbc
    | cons x xs =>
      cases c with
      | nil => simp [lexLtB] at hbc
      | cons y ys => rfl
  | cons x xs ih =>
    intro b c hab hbc
    cases b with
    | nil => simp [lexLtB] at hab
    | cons y ys =>
      cases c with
      | nil => simp [lexLtB] at hbc
      | cons z zs =>
        rcases Nat.lt_trichotomy x.toNat y.toNat with hxy | hxy | hxy
        · rcases Nat.lt_trichotomy y.toNat z.toNat with hyz | hyz | hyz
          · exact lexLtB_cons_lt xs zs (Nat.lt_trans hxy hyz)
          · exact lexLtB_cons_lt xs zs (hyz ▸ hxy)
          · rw [lexLtB_cons_gt ys zs hyz] at hbc
            exact absurd hbc (by simp)
        · rcases Nat.lt_trichotomy y.toNat z.toNat with hyz | hyz | hyz
          · exact lexLtB_cons_lt xs zs (hxy ▸ hyz)
          · rw [lexLtB_cons_eq xs zs (hxy.trans hyz)]
            rw [lexLtB_cons_eq xs ys hxy] at hab
            rw [lexLtB_cons_eq ys zs hyz] at hbc
            exact ih hab hbc
          · rw [lexLtB_cons_gt ys zs hyz] at hbc
            exact absurd hbc (by simp)
        · rw [lexLtB_cons_gt xs ys hxy] at hab
          exact absurd hab (by simp)

theorem lexLtB_total : ∀ a b : List Char,
    lexLtB a b = true ∨ lexLtB b a = true ∨ a = b := by
  intro a
  induction a with
  | nil =>
    intro b
    cases b with
    | nil => exact Or.inr (Or.inr rfl)
    | cons y ys => exact Or.inl rfl
  | cons x xs ih =>
    intro b
    cases b with
    | nil => exact Or.inr (Or.inl rfl)
    | cons y ys =>
      rcases Nat.lt_trichotomy x.toNat y.toNat with h | h | h
      · exact Or.inl (lexLtB_cons_lt xs ys h)
      · have hxy : x = y := charToNat_inj h
        rcases ih ys with h2 | h2 | h2
        · exact Or.inl ((lexLtB_cons_eq xs ys h).trans h2)
        · exact Or.inr (Or.inl ((lexLtB_cons_eq ys xs h.symm).trans h2))
        · exact Or.inr (Or.inr (by rw [hxy, h2]))
      · exact Or.inr (Or.inl (lexLtB_cons_lt ys xs h))

theorem strLtB_irrefl (s : String) : strLtB s s = false :=
  lexLtB_irrefl s.data

theorem strLtB_trans {a b c : String} (h1 : strLtB a b = true)
    (h2 : strLtB b c = true) : strLtB a c = true :=
  lexLtB_trans h1 h2

theorem strLtB_total (a b : String) :
    strLtB a b = true ∨ strLtB b a = true ∨ a = b := by
  rcases lexLtB_total a.data b.data with h | h | h
  · exact Or.inl h
  · exact Or.inr (Or.inl h)
  · exact Or.inr (Or.inr (String.ext h))

theorem find?_set_map_self (l : List (String × List Value)) (name : String)
    (vals : List Value) :
    (l.map (fun c => if c.1 == name then (name, vals) else c)).find?
        (fun c => c.1 == name)
      = if l.any (fun c => c.1 == name) then some (name, vals)
        else none := by
  induction l with
  | nil => simp
  | cons a l ih =>
    by_cases ha : (a.1 == name) = true
    · rw [List.map_cons, if_pos ha, List.any_cons]
      rw [List.find?_cons]
      simp [ha]
    · have ha2 : (a.1 == name) = false := by simpa using ha
      simp only [List.map_cons, ha2, Bool.false_eq_true, if_false,
        List.find?_cons, List.any_cons, Bool.false_or]
      exact ih

theorem find?_set_map_ne (l : List (String × List Value))
    {name other : String} (hne : other ≠ name) (vals : List Value) :
    (l.map (fun c => if c.1 == name then (name, vals) else c)).find?
        (fun c => c.1 == other)
      = l.find? (fun c => c.1 == other) := by
  have hno : (name == other) = false := by simpa using Ne.symm hne
  induction l with
  | nil => simp
  | cons a l ih =>
    by_cases ha : (a.1 == name) = true
    · have ha1 : a.1 = name := by simpa using ha
      have hao : (a.1 == other) = false := by
        rw [ha1]; exact hno
      simp only [List.map_cons, ha, if_true, List.find?_cons, hao, hno]
      exact ih
    · have ha2 : (a.1 == name) = false := by simpa using ha
      simp only [List.map_cons, ha2, Bool.false_eq_true, if_false,
        List.find?_cons]
      cases hao : (a.1 == other) with
      | true => rfl
      | false => exact ih

theorem find?_append_one_ne (l : List (String × List Value))
    {name other : String} (hne : other ≠ name) (vals : List Value) :
    (l ++ [(name, vals)]).find? (fun c => c.1 == other)
      = l.find? (fun c => c.1 == other) := by
  have hno : (name == other) = false := by simpa using Ne.symm hne
  induction l with
  | nil => simp [List.find?_cons, hno]
  | cons a l ih =>
    rw [List.cons_append]
    simp only [List.find?_cons]
    cases hao : (a.1 == other) with
    | true => rfl
    | false => exact ih

theorem getCol_setCol_self (df : DataFrame) (name : String)
    (vals : List Value) : getCol (setCol df name vals) name = some vals := by
  unfold getCol setCol hasCol
  by_cases h : df.cols.any (fun c => c.1 == name) = true
  · simp only [h, if_true]
    rw [find?_set_map_self, if_pos h]
    rfl
  · rw [Bool.not_eq_true] at h
    simp only [h, Bool.false_eq_true, if_false]
    rw [List.find?_append]
    have hnone : df.cols.find? (fun c => c.1 == name) = none := by
      rw [List.find?_eq_none]
      intro x hx hpx
      rw [← Bool.not_eq_true] at h
      exact h (List.any_eq_true.mpr ⟨x, hx, hpx⟩)
    rw [hnone]
    simp [List.find?_cons]

theorem getCol_setCol_ne (df : DataFrame) {name other : String}
    (hne : other ≠ name) (vals : List Value) :
    getCol (setCol df name vals) other = getCol df other := by
  unfold getCol setCol hasCol
  by_cases h : df.cols.any (fun c => c.1 == name) = true
  · simp only [h, if_true]
    rw [find?_set_map_ne _ hne]
  · rw [Bool.not_eq_true] at h
    simp only [h, Bool.false_eq_true, if_false]
    rw [find?_append_one_ne _ hne]

theorem hasCol_setCol_self (df : DataFrame) (name : String)
    (vals : List Value) : hasCol (setCol df name vals) name = true := by
  have h := getCol_setCol_self df name vals
  unfold getCol at h
  unfold hasCol
  rcases hf : (setCol df name vals).cols.find? (fun c => c.1 == name)
    with _ | c
  · rw [hf] at h; simp at h
  · have hp := List.find?_some hf
    exact List.any_eq_true.mpr ⟨c, List.mem_of_find?_eq_some hf, hp⟩

theorem hasCol_setCol_mono (df : DataFrame) {name other : String}
    (h : hasCol df other = true) (vals : List Value) :
    hasCol (setCol df name vals) other = true := by
  by_cases hne : other = name
  · rw [hne]; exact hasCol_setCol_self df name vals
  · have hg := getCol_setCol_ne df hne vals
    unfold hasCol at h ⊢
    unfold getCol at hg
    obtain ⟨c, hc, hceq⟩ := List.any_eq_true.mp h
    have hsome : df.cols.find? (fun x => x.1 == other) ≠ none := by
      rw [Ne, List.find?_eq_none]
      intro hall
      exact absurd hceq (hall c hc)
    rcases hf : df.cols.find? (fun x => x.1 == other) with _ | d
    · exact absurd hf hsome
    · rw [hf] at hg
      rcases hf2 : (setCol df name vals).cols.find? (fun x => x.1 == other)
        with _ | e
      · rw [hf2] at hg; simp at hg
      · have hp := List.find?_some hf2
        exact List.any_eq_true.mpr ⟨e, List.mem_of_find?_eq_some hf2, hp⟩

theorem heapWrite_read_self (h : Nat → Option DataFrame) (r : Nat)
    (df : DataFrame) : heapWrite h r df r = some df := by
  simp [heapWrite]

instance keyLeTotal : IsTotal (String × Nat) keyLe := by
  constructor
  intro a b
  rcases strLtB_total a.1 b.1 with h | h | h
  · exact Or.inl (Or.inl h)
  · exact Or.inr (Or.inl h)
  · rcases Nat.le_total a.2 b.2 with h2 | h2
    · exact Or.inl (Or.inr ⟨h, h2⟩)
    · exact Or.inr (Or.inr ⟨h.symm, h2⟩)

instance keyLeTrans : IsTrans (String × Nat) keyLe := by
  constructor
  intro a b c hab hbc
  rcases hab with h1 | ⟨h1, h1n⟩
  · rcases hbc with h2 | ⟨h2, h2n⟩
    · exact Or.inl (strLtB_trans h1 h2)
    · exact Or.inl (h2 ▸ h1)
  · rcases hbc with h2 | ⟨h2, h2n⟩
    · exact Or.inl (h1 ▸ h2)
    · exact Or.inr ⟨h1.trans h2, h1n.trans h2n⟩

/-! ## Lemmas about `normalize_df` -/

theorem nrows_stripStep (df : DataFrame) : nrows (stripStep df) = nrows df := by
  unfold nrows stripStep
  cases df.cols with
  | nil => rfl
  | cons c cs => rfl

theorem nrows_renameStep (df : DataFrame) :
    nrows (renameStep df) = nrows df := by
  unfold nrows renameStep
  cases df.cols with
  | nil => rfl
  | cons c cs => rfl

theorem getCol_preInject_Year (df : DataFrame) (fn : String) :
    getCol (preInject df fn) "Year"
      = some (List.replicate (nrows df) (yearValue fn)) := by
  unfold preInject yearStep setScalar
  rw [getCol_setCol_self, nrows_renameStep, nrows_stripStep]

theorem injectCoords_getCol_Year (df out : DataFrame)
    (h : injectCoords df = Except.ok out) :
    getCol out "Year" = getCol df "Year" := by
  unfold injectCoords at h
  by_cases hc : (hasCol df "Latitude" && hasCol df "Longitude") = true
  · rw [if_pos hc] at h
    cases h
    rfl
  · rw [Bool.not_eq_true] at hc
    rw [hc] at h
    simp only [Bool.false_eq_true, if_false] at h
    cases hd : getCol df "District" with
    | none => rw [hd] at h; cases h
    | some dvals =>
      rw [hd] at h
      cases h
      rw [getCol_setCol_ne _ (by decide), getCol_setCol_ne _ (by decide)]

/-- Core of the coordinate-injection branch: when the guard fires and the
run succeeds, both coordinate columns of the output are the per-row
`district_coords` lookups of the `District` column. -/
theorem injectCoords_spec (df out : DataFrame)
    (hmiss : (hasCol df "Latitude" && hasCol df "Longitude") = false)
    (h : injectCoords df = Except.ok out) :
    ∃ dvals, getCol df "District" = some dvals ∧
      getCol out "Latitude"
        = some (dvals.map (fun v => Value.num (coordPair v).1)) ∧
      getCol out "Longitude"
        = some (dvals.map (fun v => Value.num (coordPair v).2)) := by
  unfold injectCoords at h
  rw [hmiss] at h
  simp only [Bool.false_eq_true, if_false] at h
  cases hd : getCol df "District" with
  | none => rw [hd] at h; cases h
  | some dvals =>
    rw [hd] at h
    cases h
    refine ⟨dvals, rfl, ?_, ?_⟩
    · rw [getCol_setCol_ne _ (by decide), getCol_setCol_self]
    · rw [getCol_setCol_self]

/-- C1: for every filename with at least one digit, `normalize_df` sets
the `Year` column of every row to the integer formed by concatenating all
digit characters of the filename in order; for a filename with no digits,
`Year` is set to null. -/
theorem claim1_year_from_filename (df : DataFrame) (fn : String)
    (out : DataFrame) (h : normalize_df df fn = Except.ok out) :
    (digitsOf fn ≠ [] →
      getCol out "Year"
        = some (List.replicate (nrows df)
            (Value.intv (concatDigits (digitsOf fn))))) ∧
    (digitsOf fn = [] →
      getCol out "Year" = some (List.replicate (nrows df) Value.null)) := by
  unfold normalize_df at h
  have hy := injectCoords_getCol_Year _ _ h
  rw [getCol_preInject_Year] at hy
  constructor
  · intro hne
    rw [hy]
    unfold yearValue
    rw [if_neg hne]
  · intro heq
    rw [hy]
    unfold yearValue
    rw [if_pos heq]

/-- Witness for C1: the filename `"data_2020_v2.csv"` has digits and the
derived year is the concatenation `20202`. -/
theorem claim1_witness :
    normalize_df sampleDf "data_2020_v2.csv" = Except.ok sampleOut ∧
    getCol sampleOut "Year" = some [Value.intv 20202] := by
  have hrun : normalize_df sampleDf "data_2020_v2.csv" = Except.ok sampleOut :=
    rfl
  refine ⟨hrun, ?_⟩
  have h := (claim1_year_from_filename sampleDf "data_2020_v2.csv" sampleOut
    hrun).1 (by decide)
  rw [h]
  decide

/-- C7: whenever `normalize_df` returns a dataframe, that dataframe has a
`Year` column and both a `Latitude` and a `Longitude` column. -/
theorem claim7_columns_always_present (df : DataFrame) (fn : String)
    (out : DataFrame) (h : normalize_df df fn = Except.ok out) :
    hasCol out "Year" = true ∧ hasCol out "Latitude" = true ∧
      hasCol out "Longitude" = true := by
  have hyear : hasCol (preInject df fn) "Year" = true := by
    unfold preInject yearStep setScalar
    exact hasCol_setCol_self _ _ _
  unfold normalize_df injectCoords at h
  by_cases hc : (hasCol (preInject df fn) "Latitude"
      && hasCol (preInject df fn) "Longitude") = true
  · rw [if_pos hc] at h
    cases h
    rw [Bool.and_eq_true] at hc
    exact ⟨hyear, hc.1, hc.2⟩
  · rw [Bool.not_eq_true] at hc
    rw [hc] at h
    simp only [Bool.false_eq_true, if_false] at h
    cases hd : getCol (preInject df fn) "District" with
    | none => rw [hd] at h; cases h
    | some dvals =>
      rw [hd] at h
      cases h
      refine ⟨?_, ?_, ?_⟩
      · exact hasCol_setCol_mono _ (hasCol_setCol_mono _ hyear _) _
      · exact hasCol_setCol_mono _ (hasCol_setCol_self _ _ _) _
      · exact hasCol_setCol_self _ _ _

/-- Witness for C7 at a concrete frame and filename. -/
theorem claim7_witness :
    normalize_df sampleDf "data_2020_v2.csv" = Except.ok sampleOut ∧
    (hasCol sampleOut "Year" = true ∧ hasCol sampleOut "Latitude" = true ∧
      hasCol sampleOut "Longitude" = true) := by
  have hrun : normalize_df sampleDf "data_2020_v2.csv" = Except.ok sampleOut :=
    rfl
  exact ⟨hrun,
    claim7_columns_always_present sampleDf "data_2020_v2.csv" sampleOut hrun⟩

/-- C5: whenever `normalize_df` injects coordinates (the guard saw at
least one of the two columns missing), every row's injected
(Latitude, Longitude) pair is the `district_coords` entry for that row's
`District` — matched exactly, case- and spelling-sensitively — or the
default point (11.0, 78.0) when the district is not a key of the table. -/
theorem claim5_injected_coordinates (df : DataFrame) (fn : String)
    (out : DataFrame) (h : normalize_df df fn = Except.ok out)
    (hmiss : (hasCol (preInject df fn) "Latitude"
        && hasCol (preInject df fn) "Longitude") = false) :
    (∃ dvals, getCol (preInject df fn) "District" = some dvals ∧
      getCol out "Latitude"
        = some (dvals.map (fun v => Value.num (coordPair v).1)) ∧
      getCol out "Longitude"
        = some (dvals.map (fun v => Value.num (coordPair v).2))) ∧
    (∀ d p, lookupCoord d = some p → coordPair (Value.str d) = p) ∧
    (∀ d, lookupCoord d = none → coordPair (Value.str d) = (11.0, 78.0)) := by
  refine ⟨injectCoords_spec _ _ hmiss h, ?_, ?_⟩
  · intro d p hp
    have hm : coordPair (Value.str d) = (lookupCoord d).getD (11.0, 78.0) := rfl
    rw [hm, hp]
    rfl
  · intro d hp
    have hm : coordPair (Value.str d) = (lookupCoord d).getD (11.0, 78.0) := rfl
    rw [hm, hp]
    rfl

/-- Witness for C5: `"Chennai"` resolves to the table entry, `"Atlantis"`
falls back to the default point (11.0, 78.0). -/
theorem claim5_witness :
    (∃ out, normalize_df sampleDf2 "w2021.csv" = Except.ok out ∧
      getCol out "Latitude" = some [Value.num 13.0827, Value.num 11.0] ∧
      getCol out "Longitude" = some [Value.num 80.2707, Value.num 78.0]) ∧
    lookupCoord "Atlantis" = none := by
  have hrun : normalize_df sampleDf2 "w2021.csv" = Except.ok sampleOut2 := rfl
  refine ⟨?_, by decide⟩
  obtain ⟨⟨dvals, hdv, hlat, hlong⟩, _, _⟩ :=
    claim5_injected_coordinates sampleDf2 "w2021.csv" sampleOut2 hrun
      (by decide)
  have hdv2 : dvals = [Value.str "Chennai", Value.str "Atlantis"] := by
    have hD : getCol (preInject sampleDf2 "w2021.csv") "District"
        = some [Value.str "Chennai", Value.str "Atlantis"] := by decide
    rw [hD] at hdv
    exact (Option.some.inj hdv).symm
  refine ⟨sampleOut2, hrun, ?_, ?_⟩
  · rw [hlat, hdv2]
    rfl
  · rw [hlong, hdv2]
    rfl

/-- C9: if exactly one of the `Latitude` / `Longitude` columns is present,
`normalize_df` replaces both columns with the district-table lookups,
discarding the explicit coordinate column that was present. -/
theorem claim9_one_coordinate_discarded (df : DataFrame) (fn : String)
    (out : DataFrame) (h : normalize_df df fn = Except.ok out)
    (hone : (hasCol (preInject df fn) "Latitude" = true ∧
        hasCol (preInject df fn) "Longitude" = false) ∨
      (hasCol (preInject df fn) "Latitude" = false ∧
        hasCol (preInject df fn) "Longitude" = true)) :
    ∃ dvals, getCol (preInject df fn) "District" = some dvals ∧
      getCol out "Latitude"
        = some (dvals.map (fun v => Value.num (coordPair v).1)) ∧
      getCol out "Longitude"
        = some (dvals.map (fun v => Value.num (coordPair v).2)) := by
  have hmiss : (hasCol (preInject df fn) "Latitude"
      && hasCol (preInject df fn) "Longitude") = false := by
    rcases hone with ⟨h1, h2⟩ | ⟨h1, h2⟩ <;> rw [h1, h2] <;> rfl
  exact injectCoords_spec _ _ hmiss h

/-- Witness for C9: the explicit `Latitude` value 99 is discarded and both
columns come from the table entry for `"Salem"`. -/
theorem claim9_witness :
    (∃ out, normalize_df sampleDfLat "w2021.csv" = Except.ok out ∧
      getCol out "Latitude" = some [Value.num 11.6643] ∧
      getCol out "Longitude" = some [Value.num 78.1460]) ∧
    hasCol (preInject sampleDfLat "w2021.csv") "Latitude" = true ∧
    hasCol (preInject sampleDfLat "w2021.csv") "Longitude" = false := by
  have hrun : normalize_df sampleDfLat "w2021.csv" = Except.ok sampleOutLat :=
    rfl
  refine ⟨?_, by decide, by decide⟩
  obtain ⟨dvals, hdv, hlat, hlong⟩ :=
    claim9_one_coordinate_discarded sampleDfLat "w2021.csv" sampleOutLat hrun
      (Or.inl ⟨by decide, by decide⟩)
  have hdv2 : dvals = [Value.str "Salem"] := by
    have hD : getCol (preInject sampleDfLat "w2021.csv") "District"
        = some [Value.str "Salem"] := by decide
    rw [hD] at hdv
    exact (Option.some.inj hdv).symm
  refine ⟨sampleOutLat, hrun, ?_, ?_⟩
  · rw [hlat, hdv2]
    rfl
  · rw [hlong, hdv2]
    rfl

/-- C10: the body of `normalize_df` mutates the dataframe object at the
argument reference in place and returns that same reference, so after the
call the caller's dataframe equals the returned one, and both equal the
`normalize_df` value of the original frame. -/
theorem claim10_in_place_mutation (h : Nat → Option DataFrame) (r : Nat)
    (fn : String) (h2 : Nat → Option DataFrame) (r2 : Nat)
    (hrun : normalizeProg h r fn = Except.ok (h2, r2)) :
    r2 = r ∧ ∃ df out, h r = some df ∧
      normalize_df df fn = Except.ok out ∧ h2 r = some out := by
  unfold normalizeProg stmtStrip stmtRename stmtYear stmtInject at hrun
  cases hdf : h r with
  | none => rw [hdf] at hrun; cases hrun
  | some df =>
    rw [hdf] at hrun
    simp only [heapWrite_read_self] at hrun
    cases hinj : injectCoords (yearStep (renameStep (stripStep df)) fn) with
    | error e =>
      rw [hinj] at hrun
      simp only [Except.map] at hrun
      cases hrun
    | ok out =>
      rw [hinj] at hrun
      simp only [Except.map, Except.ok.injEq, Prod.mk.injEq] at hrun
      obtain ⟨hh2, hr2⟩ := hrun
      refine ⟨hr2.symm, df, out, rfl, hinj, ?_⟩
      rw [← hh2, heapWrite_read_self]

/-- Witness for C10 at a concrete heap, reference and filename. -/
theorem claim10_witness :
    heap0Run.2 = 0 ∧ ∃ df out, heap0 0 = some df ∧
      normalize_df df "data_2020_v2.csv" = Except.ok out ∧
      heap0Run.1 0 = some out := by
  have hrun : normalizeProg heap0 0 "data_2020_v2.csv"
      = Except.ok (heap0Run.1, heap0Run.2) := rfl
  exact claim10_in_place_mutation heap0 0 "data_2020_v2.csv"
    heap0Run.1 heap0Run.2 hrun

theorem keyLt_year {a b : String × Nat} (h : keyLt a b) (hfst : a.1 = b.1) :
    a.2 < b.2 := by
  rcases h with h | ⟨h1, h2⟩
  · rw [hfst, strLtB_irrefl] at h
    cases h
  · exact h2

theorem keyLt_fst {a b : String × Nat} (h : keyLt a b) :
    strLtB a.1 b.1 = true ∨ a.1 = b.1 := by
  rcases h with h | ⟨h1, _⟩
  · exact Or.inl h
  · exact Or.inr h1

theorem groupKeys_pairwise (rows : List StationRow) :
    List.Pairwise keyLt (groupKeys rows) := by
  have hs : List.Sorted keyLe (groupKeys rows) :=
    List.sorted_insertionSort keyLe _
  have hn : (groupKeys rows).Nodup :=
    ((List.perm_insertionSort keyLe _).symm).nodup
      (List.nodup_dedup _)
  have hcomb := List.Pairwise.and hs hn
  refine hcomb.imp ?_
  rintro a b ⟨hle, hne⟩
  rcases hle with h | ⟨h1, h2⟩
  · exact Or.inl h
  · refine Or.inr ⟨h1, lt_of_le_of_ne h2 ?_⟩
    intro hy
    exact hne (Prod.ext h1 hy)

theorem mem_groupKeys (rows : List StationRow) (k : String × Nat) :
    k ∈ groupKeys rows ↔
      ∃ r ∈ rows, r.district = k.1 ∧ r.year = some k.2 := by
  unfold groupKeys
  rw [List.mem_insertionSort, List.mem_dedup, List.mem_filterMap]
  constructor
  · rintro ⟨r, hr, hk⟩
    unfold rowKey at hk
    cases hy : r.year with
    | none => rw [hy] at hk; cases hk
    | some y =>
      rw [hy] at hk
      rw [show Option.map (fun v => (r.district, v)) (some y)
          = some (r.district, y) from rfl] at hk
      cases hk
      exact ⟨r, hr, rfl, hy⟩
  · rintro ⟨r, hr, hd, hy⟩
    refine ⟨r, hr, ?_⟩
    unfold rowKey
    rw [hy, hd]
    simp

theorem applyDiff_length : ∀ (l : List (String × Nat × ℚ))
    (seen : List (String × ℚ)), (applyDiff seen l).length = l.length := by
  intro l
  induction l with
  | nil => intro seen; rfl
  | cons t rest ih =>
    intro seen
    obtain ⟨d, y, m⟩ := t
    unfold applyDiff
    rw [List.length_cons, List.length_cons, ih]

theorem applyDiff_getElem? : ∀ (l : List (String × Nat × ℚ))
    (seen : List (String × ℚ)) (i : Nat),
    (applyDiff seen l)[i]? = (l[i]?).map (fun t =>
      { district := t.1, year := t.2.1, minimum := t.2.2,
        deltaWL := (((l.take i).reverse.map (fun u => (u.1, u.2.2))
            ++ seen).find? (fun p => p.1 == t.1)).map
          (fun p => t.2.2 - p.2) : YRow }) := by
  intro l
  induction l with
  | nil =>
    intro seen i
    rw [show applyDiff seen [] = ([] : List YRow) from rfl]
    simp
  | cons t rest ih =>
    intro seen i
    obtain ⟨d, y, m⟩ := t
    have hstep : applyDiff seen ((d, y, m) :: rest)
        = { district := d, year := y, minimum := m,
            deltaWL := (seen.find? (fun p => p.1 == d)).map
              (fun p => m - p.2) } :: applyDiff ((d, m) :: seen) rest := rfl
    cases i with
    | zero =>
      rw [hstep, List.getElem?_cons_zero, List.getElem?_cons_zero]
      rfl
    | succ j =>
      rw [hstep, List.getElem?_cons_succ, List.getElem?_cons_succ, ih]
      have hli : (((d, y, m) :: rest).take (j + 1)).reverse.map
            (fun u => (u.1, u.2.2)) ++ seen
          = (rest.take j).reverse.map (fun u => (u.1, u.2.2))
            ++ ((d, m) :: seen) := by
        rw [List.take_succ_cons, List.reverse_cons, List.map_append,
          List.append_assoc]
        rfl
      simp only [hli]

theorem yearly_change_length (rows : List StationRow) :
    (yearly_change rows).length = (groupKeys rows).length := by
  unfold yearly_change
  rw [applyDiff_length]
  unfold keyedMeans
  rw [List.length_map]

theorem yearly_change_getElem?k (rows : List StationRow) (i : Nat) :
    (yearly_change rows)[i]? = ((keyedMeans rows)[i]?).map (fun t =>
      { district := t.1, year := t.2.1, minimum := t.2.2,
        deltaWL := (((keyedMeans rows).take i).reverse.map
            (fun u => (u.1, u.2.2))).find? (fun p => p.1 == t.1) |>.map
          (fun p => t.2.2 - p.2) : YRow }) := by
  unfold yearly_change
  rw [applyDiff_getElem?]
  simp only [List.append_nil]

theorem keyedMeans_getElem? (rows : List StationRow) (i : Nat) :
    (keyedMeans rows)[i]? = ((groupKeys rows)[i]?).map
      (fun k => (k.1, k.2, meanMin rows k.1 k.2)) := by
  unfold keyedMeans
  rw [List.getElem?_map]

theorem keyedMeans_take_reverse_map (rows : List StationRow) (i : Nat) :
    ((keyedMeans rows).take i).reverse.map (fun u => (u.1, u.2.2))
      = ((groupKeys rows).take i).reverse.map
        (fun u => (u.1, meanMin rows u.1 u.2)) := by
  unfold keyedMeans
  rw [← List.map_take, ← List.map_reverse, List.map_map]
  rfl

theorem yearly_change_at (rows : List StationRow) (i : Nat)
    (k : String × Nat) (hk : (groupKeys rows)[i]? = some k) :
    (yearly_change rows)[i]? = some
      { district := k.1, year := k.2, minimum := meanMin rows k.1 k.2,
        deltaWL := deltaAt rows i k } := by
  rw [yearly_change_getElem?k, keyedMeans_getElem?, hk]
  rw [show Option.map (fun k : String × Nat =>
        (k.1, k.2, meanMin rows k.1 k.2)) (some k)
      = some (k.1, k.2, meanMin rows k.1 k.2) from rfl]
  rw [show ∀ o : Option (String × Nat × ℚ), ∀ f, Option.map f o = o.map f
    from fun o f => rfl]
  rw [keyedMeans_take_reverse_map]
  rfl

theorem deltaAt_zero (rows : List StationRow) (k : String × Nat) :
    deltaAt rows 0 k = none := rfl

theorem yearly_change_key_map (rows : List StationRow) :
    (yearly_change rows).map (fun r => (r.district, r.year))
      = groupKeys rows := by
  apply List.ext_getElem?
  intro i
  rw [List.getElem?_map]
  rcases hk : (groupKeys rows)[i]? with _ | k
  · rw [yearly_change_getElem?k, keyedMeans_getElem?, hk]
    rfl
  · rw [yearly_change_at rows i k hk]
    rfl

theorem yearly_change_pairwise (rows : List StationRow) :
    List.Pairwise
      (fun a b : YRow => keyLt (a.district, a.year) (b.district, b.year))
      (yearly_change rows) := by
  have h := groupKeys_pairwise rows
  rw [← yearly_change_key_map rows, List.pairwise_map] at h
  exact h

theorem deltaAt_succ_same (rows : List StationRow) (j : Nat)
    (k k2 : String × Nat) (hj : (groupKeys rows)[j]? = some k)
    (hsame : k.1 = k2.1) :
    deltaAt rows (j + 1) k2
      = some (meanMin rows k2.1 k2.2 - meanMin rows k.1 k.2) := by
  obtain ⟨kd, ky⟩ := k
  obtain ⟨kd2, ky2⟩ := k2
  simp only at hsame
  subst hsame
  unfold deltaAt
  rw [List.take_succ, hj]
  rw [show (some (kd, ky)).toList = [(kd, ky)] from rfl]
  rw [List.reverse_concat, List.map_cons]
  rw [List.find?_cons]
  simp

theorem deltaAt_succ_diff (rows : List StationRow) (j : Nat)
    (k k2 : String × Nat) (hj : (groupKeys rows)[j]? = some k)
    (hk2 : (groupKeys rows)[j + 1]? = some k2) (hdiff : k.1 ≠ k2.1) :
    deltaAt rows (j + 1) k2 = none := by
  unfold deltaAt
  have hfind : (((groupKeys rows).take (j + 1)).reverse.map
      (fun u => (u.1, meanMin rows u.1 u.2))).find?
        (fun p => p.1 == k2.1) = none := by
    rw [List.find?_eq_none]
    intro p hp
    rw [List.mem_map] at hp
    obtain ⟨u, hu, rfl⟩ := hp
    rw [List.mem_reverse] at hu
    obtain ⟨m, hm, hum⟩ := List.mem_iff_getElem.mp hu
    have hmj : m < j + 1 := by
      rw [List.length_take] at hm
      exact Nat.lt_of_lt_of_le hm (min_le_left _ _)
    have hmlen : m < (groupKeys rows).length := by
      rw [List.length_take] at hm
      have h2 := Nat.lt_of_lt_of_le hm (min_le_right _ _)
      exact h2
    have hum2 : (groupKeys rows)[m] = u := by
      rw [← hum]
      exact (List.getElem_take _).symm
    have hjlen : j < (groupKeys rows).length := by
      rcases List.getElem?_eq_some.mp hj with ⟨h, _⟩
      exact h
    have hjget : (groupKeys rows)[j] = k := by
      rcases List.getElem?_eq_some.mp hj with ⟨h, hh⟩
      exact hh
    have hj1len : j + 1 < (groupKeys rows).length := by
      rcases List.getElem?_eq_some.mp hk2 with ⟨h, _⟩
      exact h
    have hj1get : (groupKeys rows)[j + 1] = k2 := by
      rcases List.getElem?_eq_some.mp hk2 with ⟨h, hh⟩
      exact hh
    have hpw := groupKeys_pairwise rows
    rw [List.pairwise_iff_getElem] at hpw
    have hjk2 : keyLt k k2 := by
      have := hpw j (j + 1) hjlen hj1len (by omega)
      rw [hjget, hj1get] at this
      exact this
    have hstrict : strLtB k.1 k2.1 = true := by
      rcases keyLt_fst hjk2 with h | h
      · exact h
      · exact absurd h hdiff
    simp only [beq_eq_false_iff_ne, ne_eq, Bool.not_eq_true]
    intro hud
    rcases Nat.lt_or_ge m j with hmlt | hmge
    · have := hpw m j hmlen hjlen hmlt
      rw [hum2, hjget] at this
      rcases keyLt_fst this with h | h
      · rw [hud] at h
        exact absurd (strLtB_trans hstrict h) (by rw [strLtB_irrefl]; simp)
      · rw [hud] at h
        exact hdiff h.symm
    · have hmeqj : m = j := by omega
      subst hmeqj
      rw [hjget] at hum2
      rw [← hum2] at hud
      exact hdiff hud
  rw [hfind]
  rfl

theorem yc_member_rep (rows : List StationRow) (r : YRow)
    (hmem : r ∈ yearly_change rows) :
    ∃ i, ∃ hi : i < (groupKeys rows).length,
      r.district = ((groupKeys rows)[i]).1 ∧
      r.year = ((groupKeys rows)[i]).2 ∧
      r.minimum
        = meanMin rows ((groupKeys rows)[i]).1 ((groupKeys rows)[i]).2 ∧
      r.deltaWL = deltaAt rows i ((groupKeys rows)[i]) := by
  obtain ⟨i, hilen, hri⟩ := List.mem_iff_getElem.mp hmem
  have hilen2 : i < (groupKeys rows).length := by
    rw [yearly_change_length] at hilen
    exact hilen
  refine ⟨i, hilen2, ?_⟩
  have h2 : (yearly_change rows)[i]? = some r := by
    rw [List.getElem?_eq_getElem hilen, hri]
  rw [yearly_change_at rows i _ (List.getElem?_eq_getElem hilen2)] at h2
  have hr := (Option.some.inj h2).symm
  rw [hr]
  exact ⟨rfl, rfl, rfl, rfl⟩

theorem yc_member_of_index (rows : List StationRow) (i : Nat)
    (hi : i < (groupKeys rows).length) :
    ({ district := ((groupKeys rows)[i]).1, year := ((groupKeys rows)[i]).2,
       minimum
         := meanMin rows ((groupKeys rows)[i]).1 ((groupKeys rows)[i]).2,
       deltaWL := deltaAt rows i ((groupKeys rows)[i]) } : YRow)
      ∈ yearly_change rows :=
  List.getElem?_mem
    (yearly_change_at rows i _ (List.getElem?_eq_getElem hi))

theorem groupKeys_no_prev_same (rows : List StationRow) (m : Nat)
    (hm0 : m < (groupKeys rows).length)
    (hm1 : m + 1 < (groupKeys rows).length)
    (hne : ((groupKeys rows)[m]).1 ≠ ((groupKeys rows)[m + 1]).1) :
    ∀ j, ∀ hj : j < (groupKeys rows).length, j ≤ m →
      ((groupKeys rows)[j]).1 ≠ ((groupKeys rows)[m + 1]).1 := by
  intro j hj hjm hud
  have hpw := groupKeys_pairwise rows
  rw [List.pairwise_iff_getElem] at hpw
  have hstrict : strLtB ((groupKeys rows)[m]).1
      ((groupKeys rows)[m + 1]).1 = true := by
    have hlt := hpw m (m + 1) (by omega) hm1 (by omega)
    rcases keyLt_fst hlt with h | h
    · exact h
    · exact absurd h hne
  rcases Nat.lt_or_ge j m with hjlt | hjge
  · have hlt := hpw j m hj (by omega) hjlt
    rcases keyLt_fst hlt with h | h
    · rw [hud] at h
      have := strLtB_trans hstrict h
      rw [strLtB_irrefl] at this
      cases this
    · rw [hud] at h
      exact hne h.symm
  · have hjem : j = m := by omega
    subst hjem
    exact hne hud

theorem yc_presence (rows : List StationRow) (d : String) (y : Nat) :
    (∃ r2 ∈ yearly_change rows, r2.district = d ∧ r2.year = y) ↔
      ∃ row ∈ rows, row.district = d ∧ row.year = some y := by
  rw [show (∃ row ∈ rows, row.district = d ∧ row.year = some y)
      = ((d, y) ∈ groupKeys rows) from (propext (mem_groupKeys rows (d, y))).symm]
  constructor
  · rintro ⟨r2, hmem, hd, hy⟩
    have hk : (r2.district, r2.year) ∈ groupKeys rows := by
      rw [← yearly_change_key_map rows]
      exact List.mem_map_of_mem _ hmem
    rw [hd, hy] at hk
    exact hk
  · intro hk
    rw [← yearly_change_key_map rows, List.mem_map] at hk
    obtain ⟨r2, hmem, hkey⟩ := hk
    exact ⟨r2, hmem, congrArg Prod.fst hkey, congrArg Prod.snd hkey⟩

/-- C2: in the recharge/decline computation, for every district the
`DeltaWL` of the first (smallest) year present for that district is null,
and for every subsequent year `DeltaWL` equals the current year's mean
`Minimum` minus the previous present year's mean `Minimum` for that
district.  The `Minimum` column of the table is the per-group mean of the
raw rows, and a (district, year) pair appears in the table iff it appears
in the data. -/
theorem claim2_deltaWL (rows : List StationRow) (r : YRow)
    (hmem : r ∈ yearly_change rows) :
    (r.deltaWL = none ↔
      ¬ ∃ r2 ∈ yearly_change rows,
        r2.district = r.district ∧ r2.year < r.year) ∧
    (∀ r2 ∈ yearly_change rows, r2.district = r.district →
      r2.year < r.year →
      (∀ r3 ∈ yearly_change rows, r3.district = r.district →
        r3.year < r.year → r3.year ≤ r2.year) →
      r.deltaWL = some (r.minimum - r2.minimum)) ∧
    r.minimum = meanMin rows r.district r.year ∧
    (∀ d y, (∃ r2 ∈ yearly_change rows, r2.district = d ∧ r2.year = y) ↔
      ∃ row ∈ rows, row.district = d ∧ row.year = some y) := by
  obtain ⟨i, hi, hrd, hry, hrm, hrdel⟩ := yc_member_rep rows r hmem
  have hpw := groupKeys_pairwise rows
  rw [List.pairwise_iff_getElem] at hpw
  refine ⟨⟨?_, ?_⟩, ?_, ?_, fun d y => yc_presence rows d y⟩
  · intro hnone
    rintro ⟨r2, h2mem, h2d, h2y⟩
    obtain ⟨j, hj, h2rd, h2ry, h2rm, h2rdel⟩ := yc_member_rep rows r2 h2mem
    have hdd : ((groupKeys rows)[j]).1 = ((groupKeys rows)[i]).1 := by
      rw [← h2rd, ← hrd]
      exact h2d
    have hyy : ((groupKeys rows)[j]).2 < ((groupKeys rows)[i]).2 := by
      rw [← h2ry, ← hry]
      exact h2y
    rcases Nat.lt_trichotomy i j with hij | hij | hij
    · have := keyLt_year (hpw i j hi hj hij) hdd.symm
      omega
    · subst hij
      exact absurd hyy (lt_irrefl _)
    · have hnone2 : deltaAt rows i ((groupKeys rows)[i]) = none := by
        rw [← hrdel]
        exact hnone
      clear hnone hrdel hrm h2rdel h2rm hmem h2mem h2d h2y hrd hry h2rd h2ry
      revert hi hij hdd hyy hnone2
      rcases i with _ | m
      · intro hi hdd hyy hij hnone2
        omega
      · intro hi hdd hyy hij hnone2
        have hm0 : m < (groupKeys rows).length := by omega
        by_cases hsame : ((groupKeys rows)[m]).1
            = ((groupKeys rows)[m + 1]).1
        · have hdelta := deltaAt_succ_same rows m _ _
            (List.getElem?_eq_getElem
              (by omega : m < (groupKeys rows).length)) hsame
          rw [hdelta] at hnone2
          cases hnone2
        · exact groupKeys_no_prev_same rows m (by omega) hi hsame j hj (by omega) hdd
  · intro hno
    rw [hrdel]
    clear hrdel hrm
    revert hi hrd hry
    rcases i with _ | m
    · intro hi hrd hry
      exact deltaAt_zero rows _
    · intro hi hrd hry
      have hm0 : m < (groupKeys rows).length := by omega
      by_cases hsame : ((groupKeys rows)[m]).1
          = ((groupKeys rows)[m + 1]).1
      · exfalso
        apply hno
        refine ⟨_, yc_member_of_index rows m (by omega), ?_, ?_⟩
        · rw [hrd]
          exact hsame
        · rw [hry]
          exact keyLt_year (hpw m (m + 1) (by omega) hi (by omega)) hsame
      · exact deltaAt_succ_diff rows m _ _
          (List.getElem?_eq_getElem
            (by omega : m < (groupKeys rows).length))
          (List.getElem?_eq_getElem hi) hsame
  · intro r2 h2mem h2d h2y hmax
    obtain ⟨j, hj, h2rd, h2ry, h2rm, h2rdel⟩ := yc_member_rep rows r2 h2mem
    have hdd : ((groupKeys rows)[j]).1 = ((groupKeys rows)[i]).1 := by
      rw [← h2rd, ← hrd]
      exact h2d
    have hyy : ((groupKeys rows)[j]).2 < ((groupKeys rows)[i]).2 := by
      rw [← h2ry, ← hry]
      exact h2y
    have hji : j < i := by
      rcases Nat.lt_trichotomy i j with hij | hij | hij
      · have := keyLt_year (hpw i j hi hj hij) hdd.symm
        omega
      · subst hij
        exact absurd hyy (lt_irrefl _)
      · exact hij
    have hr2y : r2.year = ((groupKeys rows)[j]).2 := h2ry
    have hr2m : r2.minimum
        = meanMin rows ((groupKeys rows)[j]).1 ((groupKeys rows)[j]).2 :=
      h2rm
    clear h2rdel h2rm h2ry h2rd h2d h2y hmem h2mem
    revert hi hji hrd hry hrm hrdel hdd hyy
    rcases i with _ | m
    · intro hi hrd hry hrm hrdel hdd hyy hji
      omega
    · intro hi hrd hry hrm hrdel hdd hyy hji
      have hm0 : m < (groupKeys rows).length := by omega
      by_cases hsame : ((groupKeys rows)[m]).1
          = ((groupKeys rows)[m + 1]).1
      · have hdelta := deltaAt_succ_same rows m _ _
          (List.getElem?_eq_getElem
            (by omega : m < (groupKeys rows).length)) hsame
        have hjm : j = m := by
          rcases Nat.lt_or_ge j m with hjlt | hjge
          · exfalso
            have h3mem := yc_member_of_index rows m (by omega)
            have h3d : ((groupKeys rows)[m]).1 = r.district := by
              rw [hrd]
              exact hsame
            have h3y : ((groupKeys rows)[m]).2 < r.year := by
              rw [hry]
              exact keyLt_year (hpw m (m + 1) (by omega) hi (by omega)) hsame
            have h3le : ((groupKeys rows)[m]).2 ≤ r2.year :=
              hmax _ h3mem h3d h3y
            have hjmlt : ((groupKeys rows)[j]).2
                < ((groupKeys rows)[m]).2 :=
              keyLt_year (hpw j m hj (by omega) hjlt)
                (hdd.trans hsame.symm)
            rw [hr2y] at h3le
            omega
          · omega
        subst hjm
        rw [hrdel, hdelta, hrm, hr2m]
      · exact absurd hdd
          (groupKeys_no_prev_same rows m (by omega) hi hsame j hj (by omega))
  · rw [hrm, hrd, hry]

theorem yearly_change_rowsA : yearly_change rowsA = [yA0, yA1] := by
  have hk : groupKeys rowsA = [("Chennai", 2020), ("Chennai", 2021)] := by
    decide
  have hg1 : groupRows rowsA "Chennai" 2020
      = [⟨"Chennai", some 2020, 1, 2, 0, 0⟩] := by decide
  have hg2 : groupRows rowsA "Chennai" 2021
      = [⟨"Chennai", some 2021, 3, 4, 0, 0⟩] := by decide
  have hm1 : meanMin rowsA "Chennai" 2020 = 1 := by
    unfold meanMin
    rw [hg1]
    norm_num [meanOf]
  have hm2 : meanMin rowsA "Chennai" 2021 = 3 := by
    unfold meanMin
    rw [hg2]
    norm_num [meanOf]
  unfold yearly_change keyedMeans
  rw [hk]
  simp only [List.map_cons, List.map_nil]
  rw [hm1, hm2]
  norm_num [applyDiff, List.find?_cons, yA0, yA1]

/-- Witness for C2: in `rowsA`, the 2021 row's delta is the 2021 mean
minus the 2020 mean. -/
theorem claim2_witness :
    yA1 ∈ yearly_change rowsA ∧
    yA1.deltaWL = some (yA1.minimum - yA0.minimum) := by
  have hyc := yearly_change_rowsA
  have hmem : yA1 ∈ yearly_change rowsA := by
    rw [hyc]
    exact List.mem_cons_of_mem _ (List.mem_cons_self _ _)
  have hmem0 : yA0 ∈ yearly_change rowsA := by
    rw [hyc]
    exact List.mem_cons_self _ _
  have hmax : ∀ r3 ∈ yearly_change rowsA, r3.district = yA1.district →
      r3.year < yA1.year → r3.year ≤ yA0.year := by
    intro r3 h3mem h3d h3y
    rw [hyc] at h3mem
    rcases List.mem_cons.mp h3mem with rfl | h3
    · exact Nat.le_refl _
    · rcases List.mem_cons.mp h3 with rfl | h3b
      · exact absurd h3y (by decide)
      · cases h3b
  exact ⟨hmem,
    (claim2_deltaWL rowsA yA1 hmem).2.1 yA0 hmem0 rfl (by decide) hmax⟩

/-! ## Lemmas about the trend labels -/

theorem trendOf_pos {x : ℚ} (h : 0 < x) :
    trendOf (some x) = "⬆️ Recharge" := by
  unfold trendOf pyGtZero
  simp [h]

theorem trendOf_neg {x : ℚ} (h : x < 0) :
    trendOf (some x) = "⬇️ Decline" := by
  unfold trendOf pyGtZero pyLtZero
  have h2 : ¬ (0 < x) := lt_asymm h
  simp [h, h2]

theorem trendOf_zero : trendOf (some 0) = "➖ Stable" := by
  unfold trendOf pyGtZero pyLtZero
  simp

theorem trendOf_none : trendOf none = "➖ Stable" := rfl

/-- C3 (amended): in the trend table, "Recharge" iff `DeltaWL > 0`,
"Decline" iff `DeltaWL < 0`, and "Stable" iff `DeltaWL == 0` or `DeltaWL`
is null — a null delta is labelled "Stable", not left blank, because the
lambda's comparisons with `NaN` are both false. -/
theorem claim3_trend_labels (rows : List StationRow) (t : TRow)
    (hmem : t ∈ trend_table rows) :
    (t.trend = "⬆️ Recharge" ↔ ∃ x, t.deltaWL = some x ∧ 0 < x) ∧
    (t.trend = "⬇️ Decline" ↔ ∃ x, t.deltaWL = some x ∧ x < 0) ∧
    (t.trend = "➖ Stable" ↔
      (t.deltaWL = some 0 ∨ t.deltaWL = none)) := by
  unfold trend_table at hmem
  rw [List.mem_map] at hmem
  obtain ⟨r, hr, rfl⟩ := hmem
  cases hx : r.deltaWL with
  | none =>
    simp only [hx, trendOf_none]
    refine ⟨?_, ?_, ?_⟩
    · exact iff_of_false (by decide)
        (by rintro ⟨x, hx2, _⟩; cases hx2)
    · exact iff_of_false (by decide)
        (by rintro ⟨x, hx2, _⟩; cases hx2)
    · simp
  | some x =>
    rcases lt_trichotomy x 0 with hlt | heq | hgt
    · simp only [hx, trendOf_neg hlt]
      refine ⟨?_, ?_, ?_⟩
      · refine iff_of_false (by decide) ?_
        rintro ⟨y, hy, hpos⟩
        obtain rfl := Option.some.inj hy
        exact absurd hpos (lt_asymm hlt)
      · simp [hlt]
      · refine iff_of_false (by decide) ?_
        rintro (h0 | hn)
        · obtain rfl := Option.some.inj h0
          exact absurd hlt (lt_irrefl _)
        · cases hn
    · subst heq
      simp only [hx, trendOf_zero]
      refine ⟨?_, ?_, ?_⟩
      · refine iff_of_false (by decide) ?_
        rintro ⟨y, hy, hpos⟩
        obtain rfl := Option.some.inj hy
        exact absurd hpos (lt_irrefl _)
      · refine iff_of_false (by decide) ?_
        rintro ⟨y, hy, hneg⟩
        obtain rfl := Option.some.inj hy
        exact absurd hneg (lt_irrefl _)
      · simp
    · simp only [hx, trendOf_pos hgt]
      refine ⟨?_, ?_, ?_⟩
      · simp [hgt]
      · refine iff_of_false (by decide) ?_
        rintro ⟨y, hy, hneg⟩
        obtain rfl := Option.some.inj hy
        exact absurd hneg (lt_asymm hgt)
      · refine iff_of_false (by decide) ?_
        rintro (h0 | hn)
        · obtain rfl := Option.some.inj h0
          exact absurd hgt (lt_irrefl _)
        · cases hn

theorem trend_table_rowsA : trend_table rowsA = [tA0, tA1] := by
  unfold trend_table
  rw [yearly_change_rowsA]
  simp only [List.map_cons, List.map_nil, yA0, yA1]
  rw [show trendOf none = "➖ Stable" from rfl,
    trendOf_pos (by norm_num : (0 : ℚ) < 2)]
  rfl

/-- Counterexample for C3 as stated: the trend table built from `rowsA`
contains a row whose `DeltaWL` is null and whose trend label is
"➖ Stable" — not blank/undefined, and not matching `DeltaWL == 0`. -/
theorem claim3_counterexample :
    tA0 ∈ trend_table rowsA ∧ tA0.deltaWL = none ∧
      tA0.trend = "➖ Stable" := by
  refine ⟨?_, rfl, rfl⟩
  rw [trend_table_rowsA]
  exact List.mem_cons_self _ _

/-- Witness for C3 (amended) at a concrete trend-table row. -/
theorem claim3_witness :
    tA1 ∈ trend_table rowsA ∧
    (tA1.trend = "⬆️ Recharge" ↔ ∃ x, tA1.deltaWL = some x ∧ 0 < x) := by
  have hmem : tA1 ∈ trend_table rowsA := by
    rw [trend_table_rowsA]
    exact List.mem_cons_of_mem _ (List.mem_cons_self _ _)
  exact ⟨hmem, (claim3_trend_labels rowsA tA1 hmem).1⟩

/-! ## Marker colors, calc_stats range, and panel guards -/

/-- C4 (amended): every station marker is colored blue iff its average
minimum depth is below 5, and red iff it is not — the source colors
shallow stations blue (`"blue" if row["Minimum"] < 5 else "red"`), not
red as the claim states. -/
theorem claim4_marker_colors (rows : List StationRow) (mk : Marker)
    (hmem : mk ∈ mapMarkers rows) :
    (mk.color = "red" ↔ ¬ mk.depth < 5) ∧
    (mk.color = "blue" ↔ mk.depth < 5) := by
  unfold mapMarkers at hmem
  rw [List.mem_map] at hmem
  obtain ⟨g, hg, rfl⟩ := hmem
  show (markerColor g.2.2.2 = "red" ↔ ¬ g.2.2.2 < 5) ∧
    (markerColor g.2.2.2 = "blue" ↔ g.2.2.2 < 5)
  by_cases h : g.2.2.2 < 5
  · have hc : markerColor g.2.2.2 = "blue" := by
      unfold markerColor
      rw [if_pos h]
    rw [hc]
    exact ⟨iff_of_false (by decide) (by simp [h]), iff_of_true rfl h⟩
  · have hc : markerColor g.2.2.2 = "red" := by
      unfold markerColor
      rw [if_neg h]
    rw [hc]
    exact ⟨iff_of_true rfl h, iff_of_false (by decide) h⟩

theorem mapMarkers_rows4 : mapMarkers rows4 = [mk4] := by
  have hdd : (rows4.map
      (fun r => (r.district, r.latitude, r.longitude))).dedup
      = [("Chennai", (1 : ℚ), (2 : ℚ))] := by decide
  have hsort : List.insertionSort keyLe3 [("Chennai", (1 : ℚ), (2 : ℚ))]
      = [("Chennai", (1 : ℚ), (2 : ℚ))] := rfl
  have hfil : rows4.filter (fun r =>
      r.district == "Chennai" && r.latitude == (1 : ℚ)
        && r.longitude == (2 : ℚ)) = rows4 := by decide
  unfold mapMarkers avg_depth
  rw [hdd, hsort]
  simp only [List.map_cons, List.map_nil]
  rw [hfil]
  norm_num [rows4, meanOf, markerColor, mk4]

/-- Counterexample for C4 as stated: the station of `rows4` has average
minimum depth 3 < 5 but its marker is blue, not red. -/
theorem claim4_counterexample :
    mk4 ∈ mapMarkers rows4 ∧ mk4.depth < 5 ∧ mk4.color = "blue" ∧
      mk4.color ≠ "red" := by
  refine ⟨?_, by norm_num [mk4], rfl, by decide⟩
  rw [mapMarkers_rows4]
  exact List.mem_cons_self _ _

/-- Witness for C4 (amended) at the concrete marker of `rows4`. -/
theorem claim4_witness :
    mk4 ∈ mapMarkers rows4 ∧ (mk4.color = "blue" ↔ mk4.depth < 5) := by
  have hmem : mk4 ∈ mapMarkers rows4 := by
    rw [mapMarkers_rows4]
    exact List.mem_cons_self _ _
  exact ⟨hmem, (claim4_marker_colors rows4 mk4 hmem).2⟩

theorem foldl_min_le_foldl_max : ∀ (xs : List ℚ) (a b : ℚ), a ≤ b →
    xs.foldl min a ≤ xs.foldl max b := by
  intro xs
  induction xs with
  | nil => intro a b h; exact h
  | cons x xs ih =>
    intro a b h
    exact ih _ _ (le_trans (le_trans (min_le_left a x) h) (le_max_left b x))

theorem listMin_le_listMax (xs : List ℚ) (hne : xs ≠ []) :
    listMin xs ≤ listMax xs := by
  cases xs with
  | nil => exact absurd rfl hne
  | cons x xs =>
    unfold listMin listMax
    exact foldl_min_le_foldl_max xs x x (le_refl x)

/-- C6: every `calc_stats` row's `Range_MinMax` equals
`max(Maximum) − min(Maximum)` over that (District, Year) group's rows, and
the value is never negative. -/
theorem claim6_range (rows : List StationRow) (s : StatsRow)
    (hmem : s ∈ calc_stats rows) :
    s.range_MinMax
      = listMax ((groupRows rows s.district s.year).map StationRow.maximum)
        - listMin ((groupRows rows s.district s.year).map
            StationRow.maximum) ∧
    0 ≤ s.range_MinMax := by
  unfold calc_stats at hmem
  rw [List.mem_map] at hmem
  obtain ⟨k, hk, rfl⟩ := hmem
  constructor
  · rfl
  · obtain ⟨r, hr, hd, hy⟩ := (mem_groupKeys rows k).mp hk
    have hrg : r ∈ groupRows rows k.1 k.2 := by
      unfold groupRows
      rw [List.mem_filter]
      refine ⟨hr, ?_⟩
      rw [Bool.and_eq_true]
      constructor
      · rw [beq_iff_eq]
        exact hd
      · rw [beq_iff_eq]
        exact hy
    have hne : (groupRows rows k.1 k.2).map StationRow.maximum ≠ [] :=
      List.ne_nil_of_mem (List.mem_map_of_mem _ hrg)
    show 0 ≤ listMax ((groupRows rows k.1 k.2).map StationRow.maximum)
      - listMin ((groupRows rows k.1 k.2).map StationRow.maximum)
    exact sub_nonneg.mpr (listMin_le_listMax _ hne)

theorem calc_stats_rows6 : calc_stats rows6 = [stats6] := by
  have hkeys : groupKeys rows6 = [("Chennai", 2021)] := by decide
  have hg : groupRows rows6 "Chennai" 2021 = rows6 := by decide
  unfold calc_stats
  rw [hkeys]
  simp only [List.map_cons, List.map_nil]
  rw [hg]
  norm_num [rows6, stats6, meanOf, median, listMax, listMin,
    List.insertionSort, List.orderedInsert, max_def, min_def,
    List.getD, List.getElem?_cons_zero, List.getElem?_cons_succ]

/-- Witness for C6 at the spec's worked example: `Range_MinMax`
= 6 − 5 = 1 ≥ 0. -/
theorem claim6_witness :
    stats6 ∈ calc_stats rows6 ∧ stats6.range_MinMax = 1 ∧
      0 ≤ stats6.range_MinMax := by
  have hmem : stats6 ∈ calc_stats rows6 := by
    rw [calc_stats_rows6]
    exact List.mem_cons_self _ _
  exact ⟨hmem, rfl, (claim6_range rows6 stats6 hmem).2⟩

/-- C8: on an empty filtered dataset the stats panel shows a warning
message (and `calc_stats` is not invoked — the table branch is only taken
on non-empty data), the recharge panel shows an informational message;
the map and depth-distribution panels have no emptiness guard: on empty
data the map panel still renders a (markerless) map and the depth panel —
whose only guard is on the presence of `%` columns — still renders a
chart. -/
theorem claim8_empty_guards :
    statsPanel []
      = Panel.warningMsg "No data available for the selected filters." ∧
    rechargePanel []
      = Panel.infoMsg
          "⚠️ Not enough yearly data to calculate recharge/decline." ∧
    mapPanel [] = Panel.mapView [] ∧
    depthPanel ["District", "Year", "0-2 %"] []
      = Panel.depthChart ["0-2 %"] [] ∧
    (∀ rows : List StationRow, rows ≠ [] →
      statsPanel rows = Panel.statsTable (calc_stats rows)) := by
  refine ⟨rfl, rfl, rfl, rfl, ?_⟩
  intro rows hne
  cases rows with
  | nil => exact absurd rfl hne
  | cons a l => rfl

/-- Witness for C8: on non-empty data the stats panel does invoke
`calc_stats`. -/
theorem claim8_witness :
    statsPanel [rowW] = Panel.statsTable (calc_stats [rowW]) :=
  claim8_empty_guards.2.2.2.2 [rowW] (by simp)
